import Mathlib

/-!
Verification development for the open-objects part catalogue.

The Go source is shallowly embedded: float64 values are modelled as
rationals (ℚ), Go maps as association lists (iteration order of a Go map
is not observable by any property proved here), fallible functions return
Option or Except, and the SQLite store is modelled as an in-memory list of
records.  Each definition mirrors one function of the source; doc comments
name the source function.
-/

namespace OO

/-- Dynamically-typed attribute value, mirroring the Go `interface\x7b\x7d` values
that appear in a part's props bag after JSON decoding (float64, int/int64,
string, bool, nil). -/
inductive GoValue where
  | num (q : ℚ)
  | int (n : ℤ)
  | str (s : String)
  | boolean (b : Bool)
  | null
  deriving DecidableEq, Repr

/-- Digits of a decimal numeral accumulated into a Nat. -/
def digitsToNat (ds : List Char) : Nat :=
  ds.foldl (fun acc c => acc * 10 + (c.toNat - '0'.toNat)) 0

/-- Whitespace class used by the Go regex `\s` ([\t\n\f\r ]); also stands in
for the `strings.TrimSpace` cutset (the inputs reasoned about contain no
exotic Unicode spaces). -/
def isSpaceChar (c : Char) : Bool :=
  c = ' ' || c = '\t' || c = '\n' || c = '\x0c' || c = '\r'

/-- Model of `strconv.ParseFloat` on decimal literals:
`[+-]? (D+ [. D*] | . D+) ([eE] [+-]? D+)?`.  The Inf/NaN/hex/underscore
forms accepted by Go are outside every input reasoned about here. -/
def goParseFloat (s : String) : Option ℚ :=
  match s.data with
  | [] => none
  | cs =>
    let (sgn, cs₁) : ℚ × List Char :=
      match cs with
      | '-' :: t => (-1, t)
      | '+' :: t => (1, t)
      | t => (1, t)
    let ip := cs₁.takeWhile (·.isDigit)
    let r₁ := cs₁.drop ip.length
    let (fp, r₂) : List Char × List Char :=
      match r₁ with
      | '.' :: t =>
        let f := t.takeWhile (·.isDigit)
        (f, t.drop f.length)
      | t => ([], t)
    if ip = [] ∧ fp = [] then none
    else
      let mant : ℚ := (digitsToNat ip : ℚ) + (digitsToNat fp : ℚ) / (10 : ℚ) ^ fp.length
      match r₂ with
      | [] => some (sgn * mant)
      | e :: t =>
        if e = 'e' ∨ e = 'E' then
          let (esgn, t₂) : ℤ × List Char :=
            match t with
            | '-' :: u => (-1, u)
            | '+' :: u => (1, u)
            | u => (1, u)
          let ed := t₂.takeWhile (·.isDigit)
          if ed = [] ∨ t₂.drop ed.length ≠ [] then none
          else some (sgn * mant * (10 : ℚ) ^ (esgn * (digitsToNat ed : ℤ)))
        else none

/-- `strings.Contains` (substring test). -/
def strContains (hay needle : String) : Bool :=
  (List.range (hay.data.length + 1)).any fun i => needle.data.isPrefixOf (hay.data.drop i)

/-- Decimal rendering of a rational, modelling `fmt.Sprintf` `%v` on a
float64 for values with a short decimal expansion (the only ones the
source ever formats). -/
def formatG (q : ℚ) : String :=
  if q.den = 1 then toString q.num
  else
    match (List.range 18).find? (fun k => (q * (10 : ℚ) ^ (k + 1)).den = 1) with
    | Option.none => toString q.num ++ "/" ++ toString q.den
    | Option.some k =>
      let prec := k + 1
      let sign := if q < 0 then "-" else ""
      let scaled : ℤ := (|q| * (10 : ℚ) ^ prec).num
      let digits := toString scaled.natAbs
      let padded :=
        if digits.length ≤ prec then
          String.mk (List.replicate (prec + 1 - digits.length) '0') ++ digits
        else digits
      sign ++ padded.dropRight prec ++ "." ++ padded.takeRight prec

/-- `fmt.Sprintf` with verb `%v` on an attribute value. -/
def govFormat : GoValue → String
  | GoValue.num q => formatG q
  | GoValue.int n => toString n
  | GoValue.str s => s
  | GoValue.boolean b => if b then "true" else "false"
  | GoValue.null => "<nil>"

/-! ## search.go -/

/-- `SearchCriteria` (search.go). -/
structure SearchCriteria where
  propName : String
  isRange : Bool
  exactVal : String
  minVal : ℚ
  maxVal : ℚ
  deriving DecidableEq, Repr

/-- Character class `[\d.]` of the range regex. -/
def isDigitDot (c : Char) : Bool := c.isDigit || c = '.'

/-- One candidate decomposition `value = a ++ ".." ++ b` for the anchored
range regex `([\d.]+)\.\.([\d.]+)`, with the first group of length `i`. -/
def rangeSplitAt (s : List Char) (i : Nat) : Option (List Char × List Char) :=
  let a := s.take i
  let rest := s.drop i
  if a ≠ [] ∧ a.all isDigitDot = true ∧ rest.take 2 = ['.', '.'] ∧
      rest.drop 2 ≠ [] ∧ (rest.drop 2).all isDigitDot = true then
    some (a, rest.drop 2)
  else none

/-- Matching of the anchored regex `^([\d.]+)\.\.([\d.]+)$` with the
leftmost-first (greedy) submatch semantics of Go's regexp: the first group
takes the longest split that lets the rest match. -/
def rangeSplit (s : List Char) : Option (List Char × List Char) :=
  ((List.range (s.length + 1)).reverse).findSome? (rangeSplitAt s)

/-- First-colon split, i.e. `strings.SplitN(prop, ":", 2)`; `none` when the
input has no colon (SplitN returns a single part). -/
def splitFirstColon (s : String) : Option (String × String) :=
  match s.data.findIdx? (· = ':') with
  | Option.none => none
  | Option.some i => some (String.mk (s.data.take i), String.mk (s.data.drop (i + 1)))

/-- `ParseSearchProp` (search.go): `prop:value` exact criteria or
`prop:min..max` range criteria. -/
def parseSearchProp (prop : String) : Option SearchCriteria :=
  match splitFirstColon prop with
  | Option.none => none
  | Option.some (name, value) =>
    match rangeSplit value.data with
    | Option.some (a, b) =>
      match goParseFloat (String.mk a), goParseFloat (String.mk b) with
      | Option.some mn, Option.some mx => some ⟨name, true, "", mn, mx⟩
      | _, _ => none
    | Option.none => some ⟨name, false, value, 0, 0⟩

/-- `toFloat64` (search.go): numeric coercion used by range matching.
float64/int/int64 coerce directly, strings through ParseFloat, anything
else never coerces. -/
def toFloat64 : GoValue → Option ℚ
  | GoValue.num q => some q
  | GoValue.int n => some (n : ℚ)
  | GoValue.str s => goParseFloat s
  | _ => none

/-- `(*SearchCriteria).MatchesCriteria` (search.go). -/
def matchesCriteria (c : SearchCriteria) (v : GoValue) : Bool :=
  if c.isRange then
    match toFloat64 v with
    | Option.none => false
    | Option.some q => decide (c.minVal ≤ q) && decide (q ≤ c.maxVal)
  else govFormat v == c.exactVal

/-- The per-part property filter of `printPartsTableFiltered` (commands.go):
a property absent from the bag never matches, otherwise `MatchesCriteria`
decides. -/
def bagMatches (c : SearchCriteria) (bag : List (String × GoValue)) : Bool :=
  match bag.lookup c.propName with
  | Option.none => false
  | Option.some v => matchesCriteria c v

/-! ## normalizer.go -/

/-- `UnitDomain` (normalizer.go): the fixed set of physical domains;
`none` is the empty-string domain of untagged values. -/
inductive UnitDomain where
  | dimension | tension | courant | resistance | capacite | pression
  | vitesseRot | puissance | none
  deriving DecidableEq, Repr

/-- `UnitInfo` (normalizer.go): domain and multiplicative factor to the
domain's base unit. -/
structure UnitInfo where
  domain : UnitDomain
  factor : ℚ
  deriving DecidableEq, Repr

/-- `BaseUnits` (normalizer.go); a Go map lookup of a missing key (the
empty domain) yields `""`. -/
def baseUnitOf : UnitDomain → String
  | UnitDomain.dimension => "mm"
  | UnitDomain.tension => "V"
  | UnitDomain.courant => "A"
  | UnitDomain.resistance => "Ohm"
  | UnitDomain.capacite => "uF"
  | UnitDomain.pression => "bar"
  | UnitDomain.vitesseRot => "rpm"
  | UnitDomain.puissance => "W"
  | UnitDomain.none => ""

/-- `UnitConversions` (normalizer.go): alias → (domain, factor). -/
def UnitConversions : List (String × UnitInfo) := [
  ("mm", ⟨UnitDomain.dimension, 1⟩),
  ("cm", ⟨UnitDomain.dimension, 10⟩),
  ("m", ⟨UnitDomain.dimension, 1000⟩),
  ("in", ⟨UnitDomain.dimension, 25.4⟩),
  ("inch", ⟨UnitDomain.dimension, 25.4⟩),
  ("pouce", ⟨UnitDomain.dimension, 25.4⟩),
  ("\"", ⟨UnitDomain.dimension, 25.4⟩),
  ("v", ⟨UnitDomain.tension, 1⟩),
  ("V", ⟨UnitDomain.tension, 1⟩),
  ("volt", ⟨UnitDomain.tension, 1⟩),
  ("volts", ⟨UnitDomain.tension, 1⟩),
  ("mV", ⟨UnitDomain.tension, 0.001⟩),
  ("mv", ⟨UnitDomain.tension, 0.001⟩),
  ("kV", ⟨UnitDomain.tension, 1000⟩),
  ("kv", ⟨UnitDomain.tension, 1000⟩),
  ("a", ⟨UnitDomain.courant, 1⟩),
  ("A", ⟨UnitDomain.courant, 1⟩),
  ("amp", ⟨UnitDomain.courant, 1⟩),
  ("ampere", ⟨UnitDomain.courant, 1⟩),
  ("mA", ⟨UnitDomain.courant, 0.001⟩),
  ("ma", ⟨UnitDomain.courant, 0.001⟩),
  ("ohm", ⟨UnitDomain.resistance, 1⟩),
  ("Ohm", ⟨UnitDomain.resistance, 1⟩),
  ("Ω", ⟨UnitDomain.resistance, 1⟩),
  ("kohm", ⟨UnitDomain.resistance, 1000⟩),
  ("kOhm", ⟨UnitDomain.resistance, 1000⟩),
  ("kΩ", ⟨UnitDomain.resistance, 1000⟩),
  ("k", ⟨UnitDomain.resistance, 1000⟩),
  ("F", ⟨UnitDomain.capacite, 1000000⟩),
  ("mF", ⟨UnitDomain.capacite, 1000⟩),
  ("uF", ⟨UnitDomain.capacite, 1⟩),
  ("µF", ⟨UnitDomain.capacite, 1⟩),
  ("nF", ⟨UnitDomain.capacite, 0.001⟩),
  ("pF", ⟨UnitDomain.capacite, 0.000001⟩),
  ("bar", ⟨UnitDomain.pression, 1⟩),
  ("psi", ⟨UnitDomain.pression, 0.0689476⟩),
  ("Pa", ⟨UnitDomain.pression, 0.00001⟩),
  ("kPa", ⟨UnitDomain.pression, 0.01⟩),
  ("MPa", ⟨UnitDomain.pression, 10⟩),
  ("rpm", ⟨UnitDomain.vitesseRot, 1⟩),
  ("tr/min", ⟨UnitDomain.vitesseRot, 1⟩),
  ("tpm", ⟨UnitDomain.vitesseRot, 1⟩),
  ("w", ⟨UnitDomain.puissance, 1⟩),
  ("W", ⟨UnitDomain.puissance, 1⟩),
  ("watt", ⟨UnitDomain.puissance, 1⟩),
  ("mW", ⟨UnitDomain.puissance, 0.001⟩),
  ("kW", ⟨UnitDomain.puissance, 1000⟩)]

/-- Lookup in the alias table (`UnitConversions[unit]`). -/
def lookupUnit (u : String) : Option UnitInfo := UnitConversions.lookup u

/-- `ParsedValue` (normalizer.go). -/
structure ParsedValue where
  value : ℚ
  unit : String
  hasUnit : Bool
  deriving DecidableEq, Repr

/-- Unit-token class `[a-zA-ZΩµ"/]` of `parseValueRegex`. -/
def isUnitChar (c : Char) : Bool :=
  c.isAlpha || c = 'Ω' || c = 'µ' || c = '"' || c = '/'

/-- `strings.TrimSpace`. -/
def trimSpaces (cs : List Char) : List Char :=
  ((cs.dropWhile isSpaceChar).reverse.dropWhile isSpaceChar).reverse

/-- Whether a digit-dot run matches the number group `[-+]?\d*\.?\d+`:
nonempty, at most one dot, ending in a digit. -/
def endsWithDigit (cs : List Char) : Bool :=
  match cs.getLast? with
  | Option.some c => c.isDigit
  | Option.none => false

/-- The number group of `parseValueRegex`: takes the maximal leading
digit-dot run (nothing after the group may consume a digit or dot) and
validates it, returning its rational value and the remaining input. -/
def parseNumToken (cs : List Char) : Option (ℚ × List Char) :=
  let run := cs.takeWhile isDigitDot
  let rest := cs.drop run.length
  if run ≠ [] ∧ run.count '.' ≤ 1 ∧ endsWithDigit run = true then
    let ip := run.takeWhile (·.isDigit)
    let fp := (run.drop ip.length).drop 1
    some ((digitsToNat ip : ℚ) + (digitsToNat fp : ℚ) / (10 : ℚ) ^ fp.length, rest)
  else none

/-- `ParseValueWithUnit` (normalizer.go): trim, then match
`^([-+]?\d*\.?\d+)\s*([a-zA-ZΩµ"/]+)?$`. -/
def parseValueWithUnit (input : String) : Option ParsedValue :=
  let cs := trimSpaces input.data
  if cs = [] then none
  else
    let (sgn, cs₂) : ℚ × List Char :=
      if cs.head? = some '-' then (-1, cs.tail)
      else if cs.head? = some '+' then (1, cs.tail)
      else (1, cs)
    match parseNumToken cs₂ with
    | Option.none => none
    | Option.some (q, rest) =>
      let afterSpaces := rest.dropWhile isSpaceChar
      if afterSpaces = [] then some ⟨sgn * q, "", false⟩
      else if afterSpaces.all isUnitChar then some ⟨sgn * q, String.mk afterSpaces, true⟩
      else none

/-- `NormalizeResult` (normalizer.go). -/
structure NormalizeResult where
  value : ℚ
  domain : UnitDomain
  baseUnit : String
  deriving DecidableEq, Repr

/-- `NormalizeValue` (normalizer.go): explicit unit, else the supplied
default, else the bare value untagged; convert by the alias factor.
The suggestion text attached to the unknown-unit error is elided
(errors are collapsed to `Option`). -/
def normalizeValue (input defaultUnit : String) : Option NormalizeResult :=
  match parseValueWithUnit input with
  | Option.none => none
  | Option.some parsed =>
    if parsed.hasUnit = false ∧ defaultUnit = "" then
      some ⟨parsed.value, UnitDomain.none, ""⟩
    else
      let unitToUse := if parsed.hasUnit then parsed.unit else defaultUnit
      match lookupUnit unitToUse with
      | Option.none => none
      | Option.some info =>
        some ⟨parsed.value * info.factor, info.domain, baseUnitOf info.domain⟩

/-- The field-name keyword lists of `GetDefaultUnitForField`. -/
def dimensionFields : List String :=
  ["d_int", "d_ext", "diametre", "diameter", "largeur", "longueur",
   "length", "width", "height", "hauteur", "epaisseur", "thickness",
   "axe", "rayon", "radius", "taille", "size", "pas"]

def tensionFields : List String := ["volt", "volts", "tension", "voltage"]

def courantFields : List String := ["amp", "ampere", "courant", "current", "intensite"]

def resistanceFields : List String := ["ohm", "resistance", "impedance"]

def capaciteFields : List String := ["capacite", "capacity", "farad", "capa"]

def pressionFields : List String := ["pression", "pressure"]

def vitesseFields : List String := ["rpm", "vitesse", "speed", "rotation", "tr/min", "tours"]

def puissanceFields : List String := ["watt", "watts", "puissance", "power"]

/-- The per-list test `lower == f || strings.Contains(lower, f)`. -/
def matchesFieldList (lower : String) (fs : List String) : Bool :=
  fs.any fun f => lower == f || strContains lower f

/-- `GetDefaultUnitForField` (normalizer.go): keyword-based default unit. -/
def getDefaultUnitForField (fieldName : String) : String :=
  let lower := fieldName.toLower
  if matchesFieldList lower dimensionFields then "mm"
  else if matchesFieldList lower tensionFields then "V"
  else if matchesFieldList lower courantFields then "A"
  else if matchesFieldList lower resistanceFields then "Ohm"
  else if matchesFieldList lower capaciteFields then "uF"
  else if matchesFieldList lower pressionFields then "bar"
  else if matchesFieldList lower vitesseFields then "rpm"
  else if matchesFieldList lower puissanceFields then "W"
  else ""

/-- `textOnlyFields` (normalizer.go). -/
def textOnlyFields : List String :=
  ["reference", "marque", "type", "tete", "materiau", "modele", "serie",
   "nom", "name", "couleur", "notes", "commentaire"]

/-- `isTextOnlyField` (normalizer.go). -/
def isTextOnlyField (fieldName : String) : Bool :=
  textOnlyFields.contains fieldName.toLower

/-- The default-unit resolution of the `NormalizeProps` loop: the
field-specific template unit if present and nonempty, else the
name-inferred default. -/
def resolveDefaultUnit (fieldUnits : List (String × String)) (key : String) : String :=
  let d := (fieldUnits.lookup key).getD ""
  if d = "" then getDefaultUnitForField key else d

/-- `NormalizeValue` applied to `fmt.Sprintf("%g%s", v, unit)` with a
nonempty unit, as done by the numeric branches of `NormalizeProps`: the
formatted string parses back to the same magnitude with that explicit
unit, so the conversion is a direct alias-table lookup. -/
def normalizeNumberWithUnit (q : ℚ) (unit : String) : Option NormalizeResult :=
  match lookupUnit unit with
  | Option.none => none
  | Option.some info => some ⟨q * info.factor, info.domain, baseUnitOf info.domain⟩

/-- The body of the `NormalizeProps` loop (normalizer.go) for one field. -/
def normalizePropsField (fieldUnits : List (String × String)) (key : String)
    (v : GoValue) : Option GoValue :=
  if isTextOnlyField key then some v
  else
    let defaultUnit := resolveDefaultUnit fieldUnits key
    match v with
    | GoValue.num q =>
      if defaultUnit ≠ "" then
        (normalizeNumberWithUnit q defaultUnit).map fun r => GoValue.num r.value
      else some (GoValue.num q)
    | GoValue.int n =>
      if defaultUnit ≠ "" then
        (normalizeNumberWithUnit (n : ℚ) defaultUnit).map fun r => GoValue.num r.value
      else some (GoValue.num (n : ℚ))
    | GoValue.str s =>
      match parseValueWithUnit s with
      | Option.none => some (GoValue.str s)
      | Option.some _ => (normalizeValue s defaultUnit).map fun r => GoValue.num r.value
    | other => some other

/-- `NormalizeProps` (normalizer.go): all-or-nothing normalization of a
whole bag (the list order stands in for Go's map iteration order). -/
def normalizeProps (props : List (String × GoValue))
    (fieldUnits : List (String × String)) : Option (List (String × GoValue)) :=
  match props with
  | [] => some []
  | (k, v) :: rest =>
    (normalizePropsField fieldUnits k v).bind fun v' =>
      (normalizeProps rest fieldUnits).map ((k, v') :: ·)

/-! ## templates.go and the add pipeline (cmdAdd) -/

/-- `FieldDef` (templates.go). -/
structure FieldDef where
  required : Bool
  domain : String
  defaultUnit : String
  deriving DecidableEq, Repr

/-- `Template` (templates.go); the `Required` list is computed from the
field map at load time. -/
structure Template where
  name : String
  fields : List (String × FieldDef)
  deriving DecidableEq, Repr

/-- The process-wide `Templates` registry, as an association list. -/
def Registry := List (String × Template)

/-- `strictTypes` (templates.go): unknown categories are refused. -/
def strictTypes : Bool := true

/-- `TypeExists` (templates.go). -/
def typeExists (reg : Registry) (typeName : String) : Bool :=
  (List.lookup typeName reg).isSome

/-- The `Required` list built by `LoadTemplates` from the field map. -/
def requiredOf (tmpl : Template) : List String :=
  (tmpl.fields.filter fun f => f.2.required).map (·.1)

/-- Error outcomes of the add pipeline (cmdAdd). -/
inductive AddErr where
  | nameRequired
  | unknownType (t : String)
  | missingRequiredField (f : String)
  | normalizeError
  deriving DecidableEq, Repr

/-- `ValidateProps` (templates.go): unknown type fails in strict mode,
otherwise the first missing required field fails. -/
def validateProps (reg : Registry) (typeName : String)
    (props : List (String × GoValue)) : Except AddErr Unit :=
  match List.lookup typeName reg with
  | Option.none => if strictTypes then Except.error (AddErr.unknownType typeName) else Except.ok ()
  | Option.some tmpl =>
    match (requiredOf tmpl).find? (fun r => (props.lookup r).isNone) with
    | Option.some r => Except.error (AddErr.missingRequiredField r)
    | Option.none => Except.ok ()

/-- `GetFieldUnits` (templates.go): per-field default units of a template
(nil map for an unknown type). -/
def getFieldUnits (reg : Registry) (typeName : String) : List (String × String) :=
  match List.lookup typeName reg with
  | Option.none => []
  | Option.some tmpl =>
    (tmpl.fields.filter fun f => f.2.defaultUnit ≠ "").map fun f => (f.1, f.2.defaultUnit)

/-- `cmdAdd` (the add command): name check, strict type-existence check,
template validation (only for a nonempty type), then unit normalization,
then store. JSON decoding of the props flag and location resolution are
external; the returned bag is the one stored by `CreatePart`. -/
def cmdAddModel (reg : Registry) (typeName name : String)
    (props : List (String × GoValue)) : Except AddErr (List (String × GoValue)) :=
  if name = "" then Except.error AddErr.nameRequired
  else if typeName ≠ "" ∧ typeExists reg typeName = false then
    Except.error (AddErr.unknownType typeName)
  else
    (if typeName ≠ "" then validateProps reg typeName props else Except.ok ()).bind
      fun _ =>
        match normalizeProps props (getFieldUnits reg typeName) with
        | Option.none => Except.error AddErr.normalizeError
        | Option.some normalized => Except.ok normalized

/-! ## Location hierarchy (locations source file) -/

/-- A row of the `locations` table. -/
structure Loc where
  id : Nat
  name : String
  parent : Option Nat
  locType : String
  deriving DecidableEq, Repr

/-- Location-operation errors. -/
inductive LocErr where
  | locationNotFound
  | parentNotFound
  | cycleDetected
  | locationNotEmpty
  | locationHasChildren
  deriving DecidableEq, Repr

/-- `SELECT ... FROM locations WHERE id = ?` via `QueryRow` (first row). -/
def findLoc (st : List Loc) (i : Nat) : Option Loc :=
  st.find? fun l => l.id = i

/-- A row of the `parts` table. -/
structure PartRec where
  id : Nat
  ptype : String
  pname : String
  props : List (String × GoValue)
  location : Option Nat
  deriving DecidableEq, Repr

/-- One expansion step of the `GetFullPath` recursive CTE: the rows `l`
joined by `l.parent_id = lt.id AND l.id != lt.id` — i.e. the children of
the rows of the previous level. -/
def cteChildren (st : List Loc) (rows : List Loc) : List Loc :=
  rows.flatMap fun lt => st.filter fun l => l.parent = some lt.id ∧ l.id ≠ lt.id

/-- The levels of the `GetFullPath` CTE, expanded while `lt.level < 100`
(so levels `0..100`), starting from the rows with the queried id. -/
def cteLevels (st : List Loc) : Nat → List Loc → List (List Loc)
  | 0, rows => [rows]
  | n + 1, rows => rows :: cteLevels st n (cteChildren st rows)

/-- `GetFullPath` (locations file): the CTE rows ordered by level
descending are prepended one by one, yielding the names in ascending
level order, then joined with `" > "`; an empty row set is the
not-found failure. -/
def getFullPath (st : List Loc) (locationID : Nat) : Except LocErr String :=
  let names :=
    ((cteLevels st 100 (st.filter fun l => l.id = locationID)).map
      fun lvl => lvl.map (·.name)).flatten
  if names = [] then Except.error LocErr.locationNotFound
  else Except.ok (String.intercalate " > " names)

/-- The parent-pointer step of `isDescendant`: the `parent_id` of the row
with the current id; `none` both when the row is missing and when its
parent is NULL (the Go loop stops in either case). -/
def stepParent (st : List Loc) (i : Nat) : Option Nat :=
  (findLoc st i).bind (·.parent)

/-- The `isDescendant` loop (locations file): walk parent pointers from
`cur` with a visited set; `true` on reaching `anc`, `false` on a repeat
(pre-existing cycle) or a missing/NULL parent.  The Go loop needs no
fuel because the visited set grows every iteration; the fuel argument
makes the recursion structural, and `descWalk_fuel_irrelevant` shows any
fuel past `descBound` gives the loop's answer. -/
def descWalk (st : List Loc) : Nat → List Nat → Nat → Nat → Bool
  | 0, _, _, _ => false
  | fuel + 1, visited, cur, anc =>
    if cur = anc then true
    else if cur ∈ visited then false
    else
      match stepParent st cur with
      | Option.none => false
      | Option.some p => descWalk st fuel (cur :: visited) p anc

/-- Fuel sufficient for `descWalk` to terminate on its own. -/
def descBound (st : List Loc) : Nat := st.length + 2

/-- The spec-level notion of descent: `parentIter st n i` follows the
stored parent pointer `n` times from `i`; a location `d` is a descendant
of `a` exactly when some iterate from `d` reaches `a`. -/
def parentIter (st : List Loc) : Nat → Nat → Option Nat
  | 0, i => some i
  | n + 1, i =>
    match stepParent st i with
    | Option.none => none
    | Option.some p => parentIter st n p

/-- Every id that occurs as a stored parent pointer; each step of the
ancestor walk after the first lands in this list. -/
def allParents (st : List Loc) : List Nat := st.filterMap (·.parent)

/-- `isDescendant` (locations file). -/
def isDescendant (st : List Loc) (potentialDescendant ancestorID : Nat) : Bool :=
  descWalk st (descBound st) [] potentialDescendant ancestorID

/-- `MoveLocation` (locations file): location must exist, a non-nil new
parent must exist and must not be a descendant of the moved node; the
update rewrites the parent pointer. -/
def moveLocation (st : List Loc) (locationID : Nat) (newParentID : Option Nat) :
    Except LocErr (List Loc) :=
  match findLoc st locationID with
  | Option.none => Except.error LocErr.locationNotFound
  | Option.some _ =>
    match newParentID with
    | Option.some p =>
      match findLoc st p with
      | Option.none => Except.error LocErr.parentNotFound
      | Option.some _ =>
        if isDescendant st p locationID then Except.error LocErr.cycleDetected
        else Except.ok (st.map fun l => if l.id = locationID then { l with parent := some p } else l)
    | Option.none =>
      Except.ok (st.map fun l => if l.id = locationID then { l with parent := none } else l)

/-- `DeleteLocation` (locations file): refuse while any part references
the location or any child exists; only then delete the row.  The pair
carries the resulting locations table so that the refusals visibly leave
it unchanged. -/
def deleteLocation (parts : List PartRec) (st : List Loc) (locationID : Nat) :
    Option LocErr × List Loc :=
  if 0 < (parts.filter fun p => p.location = some locationID).length then
    (some LocErr.locationNotEmpty, st)
  else if 0 < (st.filter fun l => l.parent = some locationID).length then
    (some LocErr.locationHasChildren, st)
  else (none, st.filter fun l => l.id ≠ locationID)

/-- `SetPartLocation` (locations file), restricted to its effect on the
parts table (both existence checks assumed passed by the caller). -/
def setPartLocation (parts : List PartRec) (partID locationID : Nat) : List PartRec :=
  parts.map fun p => if p.id = partID then { p with location := some locationID } else p

/-! ## Federated search (server source file) -/

/-- `Peer` (peers file). -/
structure Peer where
  pname : String
  url : String
  apiKey : String
  deriving DecidableEq, Repr

/-- `PartAPIResponse` (server file); props kept as the raw JSON text. -/
structure PartResp where
  id : Nat
  ptype : String
  pname : String
  props : String
  location : String
  source : String
  deriving DecidableEq, Repr

/-- Outcome of one peer's request in `fetchFederated`: request/transport
error, non-200 status, undecodable payload, or a decoded result list. -/
inductive PeerResult where
  | netError
  | badStatus (code : Nat)
  | badPayload
  | ok (results : List PartResp)
  deriving DecidableEq, Repr

/-- What one peer's goroutine sends on the channel: an empty list for
every failure mode, the decoded results (re-tagged with the peer's name
as source) on success. -/
def peerContribution (p : Peer) (r : PeerResult) : List PartResp :=
  match r with
  | PeerResult.ok rs => rs.map fun x => { x with source := p.pname }
  | _ => []

/-- `fetchFederated` (server file): one goroutine per configured peer,
answers collected from a channel sized to the peer count.  `arrival` is
the order in which the per-peer messages are received — any permutation
of the configured peers, fixed by the scheduler. -/
def fetchFederatedModel (outcome : Peer → PeerResult) (arrival : List Peer) :
    List PartResp :=
  arrival.flatMap fun p => peerContribution p (outcome p)

/-- The `/api/search` handler tail (cmdServe): fan out to peers only when
the local result set is empty, appending the aggregate (whose error
return is discarded) to the empty local list. -/
def apiSearch (localResults : List PartResp) (outcome : Peer → PeerResult)
    (arrival : List Peer) : List PartResp :=
  if localResults.length = 0 then localResults ++ fetchFederatedModel outcome arrival
  else localResults

/-! ## Concrete fixtures -/

/-- The three-level chain A(root) → B → C of the spec's breadcrumb
example. -/
def chainStore : List Loc :=
  [⟨1, "A", none, "ZONE"⟩, ⟨2, "B", some 1, "FURNITURE"⟩, ⟨3, "C", some 2, "BOX"⟩]

/-- A registry with one template requiring `d_int`, used to exercise the
add pipeline. -/
def demoReg : Registry :=
  [("roulement", ⟨"roulement", [("d_int", ⟨true, "dimension", "mm"⟩)]⟩)]

/-- A bag missing the required `d_int` and carrying an unknown unit, so
both validation and normalization would fail on it. -/
def demoProps : List (String × GoValue) := [("axe", GoValue.str "10xyz")]

/-- A locations table whose stored parent pointers already form a cycle
(1 ⇄ 2), for exercising the cycle-safe ancestor walk. -/
def cycStore : List Loc :=
  [⟨1, "A", some 2, "BOX"⟩, ⟨2, "B", some 1, "BOX"⟩]

/-! ## Helper lemmas -/

/-- A filtered list has positive length iff some element satisfies the
predicate. -/
theorem filter_len_pos_iff {α : Type} (l : List α) (p : α → Bool) :
    0 < (l.filter p).length ↔ ∃ x ∈ l, p x = true := by
  rw [List.length_pos]
  simp [List.filter_eq_nil_iff]

/-- A successful association-list lookup produces a member pair. -/
theorem lookup_mem {α β : Type} [BEq α] [LawfulBEq α] {l : List (α × β)} {k : α} {v : β}
    (h : l.lookup k = some v) : (k, v) ∈ l := by
  induction l with
  | nil => simp [List.lookup] at h
  | cons a t ih =>
    rw [List.lookup] at h
    cases hk : k == a.1
    · rw [hk] at h
      exact List.mem_cons_of_mem _ (ih h)
    · rw [hk] at h
      injection h with h
      have hk' : k = a.1 := eq_of_beq hk
      rw [hk', ← h]
      exact List.mem_cons_self _ _

/-- Dropping with a predicate that fails on every element is the identity. -/
theorem dropWhile_eq_self_of {α : Type} {p : α → Bool} {l : List α}
    (h : ∀ c ∈ l, p c = false) : l.dropWhile p = l := by
  cases l with
  | nil => rfl
  | cons a t =>
    rw [List.dropWhile_cons, h a (List.mem_cons_self a t)]
    simp

/-- Trimming a string with no whitespace is the identity. -/
theorem trimSpaces_eq_self {l : List Char} (h : ∀ c ∈ l, isSpaceChar c = false) :
    trimSpaces l = l := by
  unfold trimSpaces
  rw [dropWhile_eq_self_of h, dropWhile_eq_self_of fun c hc => h c (List.mem_reverse.mp hc),
    List.reverse_reverse]

/-- Parsing `"1"` followed by a unit token: the regex splits it into
magnitude 1 and that explicit unit.  The three `all` hypotheses hold for
every alias in the conversion table. -/
theorem parseOne (u₀ : Char) (ut : List Char)
    (h1 : (u₀ :: ut).all isUnitChar = true)
    (h2 : (u₀ :: ut).all (fun c => isSpaceChar c = false) = true)
    (h3 : (u₀ :: ut).all (fun c => isDigitDot c = false) = true) :
    parseValueWithUnit (String.mk ('1' :: u₀ :: ut)) = some ⟨1, String.mk (u₀ :: ut), true⟩ := by
  simp only [List.all_eq_true, decide_eq_true_eq] at h1 h2 h3
  have htrim : trimSpaces ('1' :: u₀ :: ut) = '1' :: u₀ :: ut := by
    refine trimSpaces_eq_self fun c hc => ?_
    rcases List.mem_cons.mp hc with rfl | hc
    · decide
    · exact h2 c hc
  have hrun : ('1' :: u₀ :: ut).takeWhile isDigitDot = ['1'] := by
    rw [List.takeWhile_cons]
    simp only [show isDigitDot '1' = true from rfl, if_true]
    rw [List.takeWhile_cons, h3 u₀ (List.mem_cons_self u₀ ut)]
    simp
  have hnum : parseNumToken ('1' :: u₀ :: ut) = some (1, u₀ :: ut) := by
    unfold parseNumToken
    rw [hrun]
    norm_num [endsWithDigit, digitsToNat]
    decide
  have hdrop : (u₀ :: ut).dropWhile isSpaceChar = u₀ :: ut :=
    dropWhile_eq_self_of h2
  unfold parseValueWithUnit
  simp only [String.mk]
  rw [htrim]
  simp only [List.head?_cons, Option.some.injEq, show ('1' = '-') = False by simp,
    show ('1' = '+') = False by simp, if_false, hnum]
  rw [hdrop]
  simp only [List.cons_ne_nil, if_false, List.all_eq_true, decide_eq_true_eq]
  rw [if_pos h1]
  norm_num

/-- Every alias of the conversion table is a nonempty token of unit-class
characters (no whitespace, digits or dots) with a nonzero factor. -/
theorem unitTable_facts : ∀ p ∈ UnitConversions,
    p.1.data ≠ [] ∧ p.1.data.all isUnitChar = true
    ∧ p.1.data.all (fun c => isSpaceChar c = false) = true
    ∧ p.1.data.all (fun c => isDigitDot c = false) = true
    ∧ p.2.factor ≠ 0 := by
  with_unfolding_all decide

/-- `NormalizeValue` on `"1" ++ alias` is the alias factor. -/
theorem normalizeValue_one (u : String) (d : UnitDomain) (f : ℚ)
    (h : lookupUnit u = some ⟨d, f⟩) :
    normalizeValue ("1" ++ u) "" = some ⟨1 * f, d, baseUnitOf d⟩ := by
  obtain ⟨hne, hu, hs, hd, -⟩ := unitTable_facts (u, ⟨d, f⟩) (lookup_mem h)
  obtain ⟨ud⟩ := u
  cases ud with
  | nil => exact absurd rfl hne
  | cons u₀ ut =>
    have happ : ("1" ++ String.mk (u₀ :: ut)) = String.mk ('1' :: u₀ :: ut) := rfl
    rw [happ]
    unfold normalizeValue
    rw [parseOne u₀ ut hu hs hd]
    simp only [Bool.true_eq_false, false_and, if_false, if_true, h]

/-- Splitting an iterated parent walk. -/
theorem parentIter_add (st : List Loc) (a b i : Nat) :
    parentIter st (a + b) i = (parentIter st a i).bind (parentIter st b) := by
  induction a generalizing i with
  | zero => simp [parentIter]
  | succ a ih =>
    rw [Nat.succ_add, parentIter]
    cases hs : stepParent st i with
    | none => simp [parentIter, hs]
    | some p => simp [parentIter, hs, ih p]

/-- A period of the walk can be repeated. -/
theorem parentIter_periodic (st : List Loc) (c i : Nat)
    (hc : parentIter st c i = some i) : ∀ m, parentIter st (m * c) i = some i := by
  intro m
  induction m with
  | zero => simp [parentIter]
  | succ m ih =>
    rw [Nat.succ_mul, parentIter_add, ih]
    simpa using hc

/-- A walk with a period can be reduced modulo that period. -/
theorem parentIter_mod (st : List Loc) (c i n : Nat)
    (hc : parentIter st c i = some i) :
    parentIter st n i = parentIter st (n % c) i := by
  conv_lhs => rw [← Nat.div_add_mod n c]
  rw [Nat.mul_comm, parentIter_add, parentIter_periodic st c i hc (n / c)]
  rfl

/-- If the `n`-th parent iterate from `cur` is the first to reach `anc`,
and nothing in the visited set lies on the walk before step `n`, then
the visited-set walk answers true given fuel beyond `n`. -/
theorem descWalk_complete (st : List Loc) (anc : Nat) :
    ∀ (n cur : Nat) (visited : List Nat) (fuel : Nat),
      parentIter st n cur = some anc →
      (∀ m < n, parentIter st m cur ≠ some anc) →
      (∀ v ∈ visited, ∀ k < n, parentIter st k cur ≠ some v) →
      n + 1 ≤ fuel →
      descWalk st fuel visited cur anc = true := by
  intro n
  induction n with
  | zero =>
    intro cur visited fuel h1 _ _ hf
    obtain ⟨f, rfl⟩ : ∃ f, fuel = f + 1 := ⟨fuel - 1, by omega⟩
    rw [parentIter] at h1
    injection h1 with h1
    rw [descWalk, if_pos h1]
  | succ n ih =>
    intro cur visited fuel h1 h2 h3 hf
    obtain ⟨f, rfl⟩ : ∃ f, fuel = f + 1 := ⟨fuel - 1, by omega⟩
    have hne : cur ≠ anc := by
      intro h
      exact h2 0 (Nat.succ_pos n) (by rw [parentIter, h])
    have hnv : cur ∉ visited := by
      intro hv
      exact h3 cur hv 0 (Nat.succ_pos n) (by rw [parentIter])
    cases hs : stepParent st cur with
    | none => rw [parentIter, hs] at h1; exact absurd h1 (by simp)
    | some p =>
      rw [parentIter, hs] at h1
      rw [descWalk, if_neg hne, if_neg hnv, hs]
      refine ih p (cur :: visited) f h1 ?_ ?_ (by omega)
      · intro m hm hcontra
        exact h2 (m + 1) (by omega) (by rw [parentIter, hs]; exact hcontra)
      · intro v hv k hk hcontra
        rcases List.mem_cons.mp hv with h | hv'
        · subst h
          -- v = cur: the walk has period k+1 before reaching anc — reduce
          -- the reaching index modulo the period to contradict minimality.
          have hper : parentIter st (k + 1) v = some v := by
            rw [parentIter, hs]; exact hcontra
          have hmod := parentIter_mod st (k + 1) v (n + 1) hper
          have hreach : parentIter st (n + 1) v = some anc := by
            rw [parentIter, hs]; exact h1
          rw [hmod] at hreach
          exact h2 ((n + 1) % (k + 1)) (by
            have := Nat.mod_lt (n + 1) (show 0 < k + 1 by omega)
            omega) hreach
        · exact h3 v hv' (k + 1) (by omega) (by rw [parentIter, hs]; exact hcontra)

/-- A parent step lands in `allParents`. -/
theorem stepParent_mem_allParents {st : List Loc} {i p : Nat}
    (hs : stepParent st i = some p) : p ∈ allParents st := by
  unfold stepParent at hs
  obtain ⟨loc, hfind, hpar⟩ := Option.bind_eq_some.mp hs
  exact List.mem_filterMap.mpr ⟨loc, List.mem_of_find?_eq_some hfind, hpar⟩

/-- The walk's answer does not depend on the fuel once the fuel exceeds
the number of parent ids not yet visited (the visited set grows each
iteration, and every step lands in `allParents`). -/
theorem descWalk_congr (st : List Loc) (anc : Nat) :
    ∀ (c : Nat) (visited : List Nat) (cur f₁ f₂ : Nat),
      cur ∈ allParents st →
      ((allParents st).toFinset \ visited.toFinset).card ≤ c →
      c + 1 ≤ f₁ → c + 1 ≤ f₂ →
      descWalk st f₁ visited cur anc = descWalk st f₂ visited cur anc := by
  intro c
  induction c with
  | zero =>
    intro visited cur f₁ f₂ hcur hcard h1 h2
    obtain ⟨g₁, rfl⟩ : ∃ g, f₁ = g + 1 := ⟨f₁ - 1, by omega⟩
    obtain ⟨g₂, rfl⟩ : ∃ g, f₂ = g + 1 := ⟨f₂ - 1, by omega⟩
    by_cases ha : cur = anc
    · rw [descWalk, descWalk, if_pos ha, if_pos ha]
    by_cases hv : cur ∈ visited
    · rw [descWalk, descWalk, if_neg ha, if_neg ha, if_pos hv, if_pos hv]
    exfalso
    have : cur ∈ (allParents st).toFinset \ visited.toFinset :=
      Finset.mem_sdiff.mpr ⟨List.mem_toFinset.mpr hcur, fun hc => hv (List.mem_toFinset.mp hc)⟩
    have := Finset.card_pos.mpr ⟨cur, this⟩
    omega
  | succ c ih =>
    intro visited cur f₁ f₂ hcur hcard h1 h2
    obtain ⟨g₁, rfl⟩ : ∃ g, f₁ = g + 1 := ⟨f₁ - 1, by omega⟩
    obtain ⟨g₂, rfl⟩ : ∃ g, f₂ = g + 1 := ⟨f₂ - 1, by omega⟩
    rw [descWalk, descWalk]
    by_cases ha : cur = anc
    · rw [if_pos ha, if_pos ha]
    rw [if_neg ha, if_neg ha]
    by_cases hv : cur ∈ visited
    · rw [if_pos hv, if_pos hv]
    rw [if_neg hv, if_neg hv]
    cases hs : stepParent st cur with
    | none => rfl
    | some p =>
      have hmem : cur ∈ (allParents st).toFinset \ visited.toFinset :=
        Finset.mem_sdiff.mpr ⟨List.mem_toFinset.mpr hcur, fun hc => hv (List.mem_toFinset.mp hc)⟩
    -- card decreases by one when cur is tucked into the visited set
      refine ih (cur :: visited) p g₁ g₂ (stepParent_mem_allParents hs) ?_ (by omega) (by omega)
      rw [List.toFinset_cons, Finset.sdiff_insert, Finset.card_erase_of_mem hmem]
      have := Finset.card_pos.mpr ⟨cur, hmem⟩
      omega

/-- Past `descBound`, the walk's answer is independent of the fuel: the
visited-set loop terminates on its own, also over cyclic parent data. -/
theorem descWalk_fuel_irrelevant (st : List Loc) (visited : List Nat) (cur anc : Nat)
    (f₁ f₂ : Nat) (h1 : descBound st ≤ f₁) (h2 : descBound st ≤ f₂) :
    descWalk st f₁ visited cur anc = descWalk st f₂ visited cur anc := by
  unfold descBound at h1 h2
  obtain ⟨g₁, rfl⟩ : ∃ g, f₁ = g + 1 := ⟨f₁ - 1, by omega⟩
  obtain ⟨g₂, rfl⟩ : ∃ g, f₂ = g + 1 := ⟨f₂ - 1, by omega⟩
  rw [descWalk, descWalk]
  by_cases ha : cur = anc
  · rw [if_pos ha, if_pos ha]
  rw [if_neg ha, if_neg ha]
  by_cases hv : cur ∈ visited
  · rw [if_pos hv, if_pos hv]
  rw [if_neg hv, if_neg hv]
  cases hs : stepParent st cur with
  | none => rfl
  | some p =>
    refine descWalk_congr st anc st.length (cur :: visited) p g₁ g₂
      (stepParent_mem_allParents hs) ?_ (by omega) (by omega)
    calc ((allParents st).toFinset \ (cur :: visited).toFinset).card
        ≤ (allParents st).toFinset.card := Finset.card_le_card Finset.sdiff_subset
      _ ≤ (allParents st).length := List.toFinset_card_le _
      _ ≤ st.length := List.length_filterMap_le _ _

/-- If some parent iterate from `d` reaches `a`, the code's visited-set
check reports `d` as a descendant of `a`. -/
theorem isDescendant_of_reach (st : List Loc) (d a : Nat)
    (h : ∃ n, parentIter st n d = some a) : isDescendant st d a = true := by
  have hdec : DecidablePred fun n => parentIter st n d = some a := fun n => inferInstance
  let n₀ := Nat.find h
  have hspec : parentIter st n₀ d = some a := Nat.find_spec h
  have hmin : ∀ m < n₀, parentIter st m d ≠ some a := fun m hm => Nat.find_min h hm
  have htrue : descWalk st (max (descBound st) (n₀ + 1)) [] d a = true :=
    descWalk_complete st a n₀ d [] _ hspec hmin
      (fun v hv => absurd hv (List.not_mem_nil v)) (le_max_right _ _)
  unfold isDescendant
  rw [descWalk_fuel_irrelevant st [] d a (descBound st) (max (descBound st) (n₀ + 1))
    le_rfl (le_max_left _ _), htrue]

/-! ## Claim theorems -/

/-- C1: the spec says FullPath walks parent pointers root→leaf — for the
chain A(root)→B→C, FullPath of C's id should be "A > B > C", and an
absent id fails with LocationNotFound.  The CTE of `GetFullPath` joins
`l.parent_id = lt.id`, i.e. it walks to children, not parents: evaluated
on the chain, FullPath of C returns just "C", while the intended
breadcrumb "A > B > C" is produced only when queried at the root A.  The
absent-id case does fail as specified. -/
theorem C1_fullpath_walks_down_not_up :
    getFullPath chainStore 3 = Except.ok "C"
    ∧ getFullPath chainStore 1 = Except.ok "A > B > C"
    ∧ getFullPath chainStore 9 = Except.error LocErr.locationNotFound := by
  refine ⟨?_, ?_, ?_⟩ <;> with_unfolding_all rfl

/-- C2: a range criteria matches a bag exactly when the named property is
present, coerces to a number (float64/int/int64 directly, strings via
ParseFloat, nothing else), and that number lies in [min, max] inclusive;
an absent property never matches. -/
theorem C2_range_match_iff (name : String) (mn mx : ℚ) (bag : List (String × GoValue)) :
    (bagMatches ⟨name, true, "", mn, mx⟩ bag = true ↔
      ∃ v q, bag.lookup name = some v ∧ toFloat64 v = some q ∧ mn ≤ q ∧ q ≤ mx)
    ∧ (bag.lookup name = none → bagMatches ⟨name, true, "", mn, mx⟩ bag = false)
    ∧ (∀ q, toFloat64 (GoValue.num q) = some q)
    ∧ (∀ n, toFloat64 (GoValue.int n) = some (n : ℚ))
    ∧ (∀ s, toFloat64 (GoValue.str s) = goParseFloat s)
    ∧ (∀ b, toFloat64 (GoValue.boolean b) = none)
    ∧ toFloat64 GoValue.null = none := by
  refine ⟨?_, ?_, fun q => rfl, fun n => rfl, fun s => rfl, fun b => rfl, rfl⟩
  · unfold bagMatches matchesCriteria
    cases h : bag.lookup name with
    | none => simp [h]
    | some v =>
      cases hf : toFloat64 v with
      | none => simp [hf]
      | some q => simp [hf, and_assoc]
  · intro h
    simp [bagMatches, h]

/-- C3: the claim (and the repo's own TestParseSearchPropInvalid) expect
`ParseSearchProp` to fail on a range whose bounds are not both numbers.
It does fail on "wrongformat" (no colon) and parses the documented range
and exact examples, but "d_int:10..abc" does not match the range regex
and silently falls through to an exact-match criteria with value
"10..abc" instead of failing. -/
theorem C3_parse_search_prop_behaviour :
    parseSearchProp "wrongformat" = none
    ∧ parseSearchProp "d_int:10.5..20" = some ⟨"d_int", true, "", 10.5, 20⟩
    ∧ parseSearchProp "name:SKF" = some ⟨"name", false, "SKF", 0, 0⟩
    ∧ parseSearchProp "d_int:10..abc" = some ⟨"d_int", false, "10..abc", 0, 0⟩ := by
  refine ⟨?_, ?_, ?_, ?_⟩ <;> with_unfolding_all rfl

/-- C4: for a normalized field, the unit is resolved by (1) an explicit
unit in the value, which makes the supplied default irrelevant (so
normalize("1cm") with default "mm" is 10); else (2) the template default
for the field; else (3) the keyword default inferred from the field
name; else (4) the bare number is kept unchanged and untagged. -/
theorem C4_unit_resolution_order (fieldUnits : List (String × String)) (key : String)
    (s : String) (q : ℚ) (hkey : isTextOnlyField key = false) :
    (∀ pv d₁ d₂, parseValueWithUnit s = some pv → pv.hasUnit = true →
      normalizeValue s d₁ = normalizeValue s d₂)
    ∧ normalizeValue "1cm" "mm" = some ⟨10, UnitDomain.dimension, "mm"⟩
    ∧ (parseValueWithUnit s = some ⟨q, "", false⟩ →
        (∀ u, List.lookup key fieldUnits = some u → u ≠ "" →
          normalizePropsField fieldUnits key (GoValue.str s) =
            (normalizeValue s u).map fun r => GoValue.num r.value)
        ∧ (List.lookup key fieldUnits = none →
          normalizePropsField fieldUnits key (GoValue.str s) =
            (normalizeValue s (getDefaultUnitForField key)).map fun r => GoValue.num r.value)
        ∧ (List.lookup key fieldUnits = none → getDefaultUnitForField key = "" →
          normalizePropsField fieldUnits key (GoValue.str s) = some (GoValue.num q)
          ∧ normalizeValue s "" = some ⟨q, UnitDomain.none, ""⟩))
    ∧ (∀ n : ℚ, List.lookup key fieldUnits = none → getDefaultUnitForField key = "" →
        normalizePropsField fieldUnits key (GoValue.num n) = some (GoValue.num n)) := by
  refine ⟨fun pv d₁ d₂ hp hu => ?_, by with_unfolding_all rfl, fun hp => ⟨?_, ?_, ?_⟩,
    fun n hl hd => ?_⟩
  · unfold normalizeValue
    rw [hp]
    simp [hu]
  · intro u hl hu
    simp [normalizePropsField, hkey, resolveDefaultUnit, hl, hu, hp]
  · intro hl
    simp [normalizePropsField, hkey, resolveDefaultUnit, hl, hp]
  · intro hl hd
    constructor
    · simp [normalizePropsField, hkey, resolveDefaultUnit, hl, hd, hp, normalizeValue]
    · simp [normalizeValue, hp]
  · simp [normalizePropsField, hkey, resolveDefaultUnit, hl, hd]

/-- C4 witness at key "d_int", template default "cm", input "7". -/
theorem C4_unit_resolution_order_witness :
    (∀ pv d₁ d₂, parseValueWithUnit "7" = some pv → pv.hasUnit = true →
      normalizeValue "7" d₁ = normalizeValue "7" d₂)
    ∧ normalizeValue "1cm" "mm" = some ⟨10, UnitDomain.dimension, "mm"⟩
    ∧ (parseValueWithUnit "7" = some ⟨7, "", false⟩ →
        (∀ u, List.lookup "d_int" [("d_int", "cm")] = some u → u ≠ "" →
          normalizePropsField [("d_int", "cm")] "d_int" (GoValue.str "7") =
            (normalizeValue "7" u).map fun r => GoValue.num r.value)
        ∧ (List.lookup "d_int" [("d_int", "cm")] = none →
          normalizePropsField [("d_int", "cm")] "d_int" (GoValue.str "7") =
            (normalizeValue "7" (getDefaultUnitForField "d_int")).map fun r => GoValue.num r.value)
        ∧ (List.lookup "d_int" [("d_int", "cm")] = none → getDefaultUnitForField "d_int" = "" →
          normalizePropsField [("d_int", "cm")] "d_int" (GoValue.str "7") = some (GoValue.num 7)
          ∧ normalizeValue "7" "" = some ⟨7, UnitDomain.none, ""⟩))
    ∧ (∀ n : ℚ, List.lookup "d_int" [("d_int", "cm")] = none →
        getDefaultUnitForField "d_int" = "" →
        normalizePropsField [("d_int", "cm")] "d_int" (GoValue.num n) = some (GoValue.num n)) :=
  C4_unit_resolution_order [("d_int", "cm")] "d_int" "7" 7 (by with_unfolding_all rfl)

/-- C5: normalization is the linear map magnitude × alias factor, so for
any two aliases of one domain the results agree after scaling by the
factor ratio; concretely "1cm" and "10mm" both normalize to 10 in the mm
base, and in/inch/pouce/" all map to the dimension domain with factor
25.4. -/
theorem C5_cross_unit_consistency (u₁ u₂ : String) (d : UnitDomain) (f₁ f₂ : ℚ)
    (h₁ : lookupUnit u₁ = some ⟨d, f₁⟩) (h₂ : lookupUnit u₂ = some ⟨d, f₂⟩) :
    (∃ r₁ r₂, normalizeValue ("1" ++ u₁) "" = some r₁
      ∧ normalizeValue ("1" ++ u₂) "" = some r₂
      ∧ r₁.value = f₁ ∧ r₂.value = f₂ ∧ r₁.value * (f₂ / f₁) = r₂.value)
    ∧ (normalizeValue "1cm" "").map (·.value) = some 10
    ∧ (normalizeValue "10mm" "").map (·.value) = some 10
    ∧ lookupUnit "in" = some ⟨UnitDomain.dimension, 25.4⟩
    ∧ lookupUnit "inch" = some ⟨UnitDomain.dimension, 25.4⟩
    ∧ lookupUnit "pouce" = some ⟨UnitDomain.dimension, 25.4⟩
    ∧ lookupUnit "\"" = some ⟨UnitDomain.dimension, 25.4⟩ := by
  have hf₁ : f₁ ≠ 0 := (unitTable_facts (u₁, ⟨d, f₁⟩) (lookup_mem h₁)).2.2.2.2
  refine ⟨⟨⟨1 * f₁, d, baseUnitOf d⟩, ⟨1 * f₂, d, baseUnitOf d⟩,
    normalizeValue_one u₁ d f₁ h₁, normalizeValue_one u₂ d f₂ h₂, one_mul f₁, one_mul f₂, ?_⟩,
    ?_, ?_, ?_, ?_, ?_, ?_⟩
  · show 1 * f₁ * (f₂ / f₁) = 1 * f₂
    rw [one_mul, one_mul, mul_comm, div_mul_cancel₀ _ hf₁]
  all_goals with_unfolding_all rfl

/-- C5 witness at the alias pair cm (factor 10) and mm (factor 1). -/
theorem C5_cross_unit_consistency_witness :
    (∃ r₁ r₂, normalizeValue ("1" ++ "cm") "" = some r₁
      ∧ normalizeValue ("1" ++ "mm") "" = some r₂
      ∧ r₁.value = 10 ∧ r₂.value = 1 ∧ r₁.value * (1 / 10) = r₂.value)
    ∧ (normalizeValue "1cm" "").map (·.value) = some 10
    ∧ (normalizeValue "10mm" "").map (·.value) = some 10
    ∧ lookupUnit "in" = some ⟨UnitDomain.dimension, 25.4⟩
    ∧ lookupUnit "inch" = some ⟨UnitDomain.dimension, 25.4⟩
    ∧ lookupUnit "pouce" = some ⟨UnitDomain.dimension, 25.4⟩
    ∧ lookupUnit "\"" = some ⟨UnitDomain.dimension, 25.4⟩ :=
  C5_cross_unit_consistency "cm" "mm" UnitDomain.dimension 10 1
    (by with_unfolding_all rfl) (by with_unfolding_all rfl)

/-- C6: moving a location under a new parent that is its own descendant
(some parent-pointer iterate from the new parent reaches the moved node)
fails with CycleDetected; the ancestor walk's visited set makes its
answer independent of the fuel past the bound, so the check terminates
even when the stored parent pointers already contain a cycle; and moving
an existing location to root (nil parent) always succeeds. -/
theorem C6_move_cycle_guard (st : List Loc) (locationID parentID : Nat) (loc ploc : Loc)
    (h₁ : findLoc st locationID = some loc) (h₂ : findLoc st parentID = some ploc) :
    ((∃ n, parentIter st n parentID = some locationID) →
      moveLocation st locationID (some parentID) = Except.error LocErr.cycleDetected)
    ∧ (∀ f₁ f₂ visited cur anc, descBound st ≤ f₁ → descBound st ≤ f₂ →
        descWalk st f₁ visited cur anc = descWalk st f₂ visited cur anc)
    ∧ (∃ st', moveLocation st locationID none = Except.ok st') := by
  refine ⟨fun hreach => ?_, fun f₁ f₂ visited cur anc hf₁ hf₂ =>
    descWalk_fuel_irrelevant st visited cur anc f₁ f₂ hf₁ hf₂, ?_⟩
  · simp only [moveLocation, h₁, h₂, isDescendant_of_reach st parentID locationID hreach,
      if_true]
  · simp only [moveLocation, h₁]
    exact ⟨_, rfl⟩

/-- C6 witness on a store whose stored parent pointers already form the
cycle 1 ⇄ 2: moving 1 under 2 is refused as a cycle, the walk's answer
is fuel-independent past the bound, and moving 1 to root succeeds. -/
theorem C6_move_cycle_guard_witness :
    ((∃ n, parentIter cycStore n 2 = some 1) →
      moveLocation cycStore 1 (some 2) = Except.error LocErr.cycleDetected)
    ∧ (∀ f₁ f₂ visited cur anc, descBound cycStore ≤ f₁ → descBound cycStore ≤ f₂ →
        descWalk cycStore f₁ visited cur anc = descWalk cycStore f₂ visited cur anc)
    ∧ (∃ st', moveLocation cycStore 1 none = Except.ok st') :=
  C6_move_cycle_guard cycStore 1 2 ⟨1, "A", some 2, "BOX"⟩ ⟨2, "B", some 1, "BOX"⟩
    (by with_unfolding_all rfl) (by with_unfolding_all rfl)

/-- C7: deleting a location fails (and leaves the table unchanged)
whenever some part references it or some child location exists, and
succeeds — removing exactly that row — precisely when it is a leaf with
no directly-assigned parts. -/
theorem C7_delete_requires_empty_leaf (parts : List PartRec) (st : List Loc)
    (locationID : Nat) (loc : Loc) (_hloc : findLoc st locationID = some loc) :
    ((∃ p ∈ parts, p.location = some locationID) ∨ (∃ c ∈ st, c.parent = some locationID) →
      (deleteLocation parts st locationID).1.isSome = true ∧
        (deleteLocation parts st locationID).2 = st)
    ∧ ((deleteLocation parts st locationID).1 = none ↔
        (∀ p ∈ parts, p.location ≠ some locationID) ∧ (∀ c ∈ st, c.parent ≠ some locationID))
    ∧ ((deleteLocation parts st locationID).1 = none →
        (deleteLocation parts st locationID).2 = st.filter fun l => l.id ≠ locationID) := by
  unfold deleteLocation
  split_ifs with h1 h2
  · rw [filter_len_pos_iff] at h1
    simp only [decide_eq_true_eq] at h1
    refine ⟨fun _ => ⟨rfl, rfl⟩, ?_, by simp⟩
    simp only [Option.some_ne_none, false_iff, not_and_or]
    left
    push_neg
    exact h1
  · rw [filter_len_pos_iff] at h2
    simp only [decide_eq_true_eq] at h2
    refine ⟨fun _ => ⟨rfl, rfl⟩, ?_, by simp⟩
    simp only [Option.some_ne_none, false_iff, not_and_or]
    right
    push_neg
    exact h2
  · rw [filter_len_pos_iff] at h1 h2
    simp only [decide_eq_true_eq] at h1 h2
    push_neg at h1 h2
    refine ⟨fun hc => ?_, by simpa using ⟨h1, h2⟩, fun _ => rfl⟩
    rcases hc with h | h
    · obtain ⟨p, hp, hpl⟩ := h
      exact absurd hpl (h1 p hp)
    · obtain ⟨c, hc', hcl⟩ := h
      exact absurd hcl (h2 c hc')

/-- C7 witness: a box holding one part cannot be deleted; after the part
is reassigned to the other box, deletion succeeds and removes the row. -/
theorem C7_delete_requires_empty_leaf_witness :
    (deleteLocation [⟨1, "p", "part", [], some 10⟩]
        [⟨10, "Box1", none, "BOX"⟩, ⟨11, "Box2", none, "BOX"⟩] 10).1.isSome = true
    ∧ (deleteLocation (setPartLocation [⟨1, "p", "part", [], some 10⟩] 1 11)
        [⟨10, "Box1", none, "BOX"⟩, ⟨11, "Box2", none, "BOX"⟩] 10).1 = none := by
  have h1 := C7_delete_requires_empty_leaf [⟨1, "p", "part", [], some 10⟩]
    [⟨10, "Box1", none, "BOX"⟩, ⟨11, "Box2", none, "BOX"⟩] 10 ⟨10, "Box1", none, "BOX"⟩
    (by with_unfolding_all rfl)
  have h2 := C7_delete_requires_empty_leaf
    (setPartLocation [⟨1, "p", "part", [], some 10⟩] 1 11)
    [⟨10, "Box1", none, "BOX"⟩, ⟨11, "Box2", none, "BOX"⟩] 10 ⟨10, "Box1", none, "BOX"⟩
    (by with_unfolding_all rfl)
  refine ⟨(h1.1 ?_).1, h2.2.1.mpr ⟨?_, ?_⟩⟩
  · exact Or.inl ⟨⟨1, "p", "part", [], some 10⟩, by simp, rfl⟩
  · intro p hp
    simp only [setPartLocation, List.map_cons, List.map_nil] at hp
    simp only [List.mem_singleton] at hp
    rw [hp]
    simp
  · intro c hc
    simp only [List.mem_cons, List.mem_singleton] at hc
    rcases hc with rfl | rfl | h
    · simp
    · simp
    · exact absurd h (List.not_mem_nil c)

/-- C8: the search fans out to peers only when the local result set is
empty; each failing peer (network error, bad status, bad payload)
contributes exactly zero results, the aggregate is the concatenation of
the successful peers' contributions (up to the channel arrival order,
a permutation of the configured peers), and the call itself always
succeeds. -/
theorem C8_federated_fault_tolerance (localResults : List PartResp)
    (peers arrival : List Peer) (outcome : Peer → PeerResult)
    (hperm : arrival.Perm peers) :
    (localResults ≠ [] → apiSearch localResults outcome arrival = localResults)
    ∧ (apiSearch [] outcome peers =
        peers.flatMap fun p => peerContribution p (outcome p))
    ∧ (apiSearch [] outcome arrival).Perm
        (peers.flatMap fun p => peerContribution p (outcome p))
    ∧ (∀ p, peerContribution p PeerResult.netError = []
        ∧ (∀ code, peerContribution p (PeerResult.badStatus code) = [])
        ∧ peerContribution p PeerResult.badPayload = []) := by
  refine ⟨fun h => ?_, ?_, ?_, fun p => ⟨rfl, fun code => rfl, rfl⟩⟩
  · simp [apiSearch, List.length_eq_zero, h]
  · simp [apiSearch, fetchFederatedModel]
  · simpa [apiSearch, fetchFederatedModel] using hperm.flatMap_right
      (fun p => peerContribution p (outcome p))

/-- C8 witness: two peers, one failing and one answering, received in
swapped arrival order. -/
theorem C8_federated_fault_tolerance_witness :
    (([⟨9, "x", "y", "", "", "local"⟩] : List PartResp) ≠ [] →
      apiSearch [⟨9, "x", "y", "", "", "local"⟩]
        (fun p => if p.pname = "beta" then PeerResult.ok [⟨1, "t", "n", "", "", ""⟩]
          else PeerResult.netError)
        [⟨"beta", "http://b", "k2"⟩, ⟨"alpha", "http://a", "k1"⟩] =
        [⟨9, "x", "y", "", "", "local"⟩])
    ∧ (apiSearch []
        (fun p => if p.pname = "beta" then PeerResult.ok [⟨1, "t", "n", "", "", ""⟩]
          else PeerResult.netError)
        [⟨"alpha", "http://a", "k1"⟩, ⟨"beta", "http://b", "k2"⟩] =
        ([⟨"alpha", "http://a", "k1"⟩, ⟨"beta", "http://b", "k2"⟩] : List Peer).flatMap
          fun p => peerContribution p
            (if p.pname = "beta" then PeerResult.ok [⟨1, "t", "n", "", "", ""⟩]
              else PeerResult.netError))
    ∧ (apiSearch []
        (fun p => if p.pname = "beta" then PeerResult.ok [⟨1, "t", "n", "", "", ""⟩]
          else PeerResult.netError)
        [⟨"beta", "http://b", "k2"⟩, ⟨"alpha", "http://a", "k1"⟩]).Perm
        (([⟨"alpha", "http://a", "k1"⟩, ⟨"beta", "http://b", "k2"⟩] : List Peer).flatMap
          fun p => peerContribution p
            (if p.pname = "beta" then PeerResult.ok [⟨1, "t", "n", "", "", ""⟩]
              else PeerResult.netError))
    ∧ (∀ p, peerContribution p PeerResult.netError = []
        ∧ (∀ code, peerContribution p (PeerResult.badStatus code) = [])
        ∧ peerContribution p PeerResult.badPayload = []) :=
  C8_federated_fault_tolerance [⟨9, "x", "y", "", "", "local"⟩]
    [⟨"alpha", "http://a", "k1"⟩, ⟨"beta", "http://b", "k2"⟩]
    [⟨"beta", "http://b", "k2"⟩, ⟨"alpha", "http://a", "k1"⟩]
    (fun p => if p.pname = "beta" then PeerResult.ok [⟨1, "t", "n", "", "", ""⟩]
      else PeerResult.netError)
    (by decide)

/-- C9 counterexample: on a bag that both misses the required field and
would fail unit normalization, `cmdAdd` returns the validation error, not
the normalization error — validation runs first, contradicting the
claimed normalize-then-validate order. -/
theorem C9_counterexample :
    cmdAddModel demoReg "roulement" "r1" demoProps =
      Except.error (AddErr.missingRequiredField "d_int")
    ∧ normalizeProps demoProps (getFieldUnits demoReg "roulement") = none
    ∧ AddErr.missingRequiredField "d_int" ≠ AddErr.normalizeError := by
  refine ⟨?_, ?_, by simp⟩ <;> with_unfolding_all rfl

/-- C9 (amended): part creation is validate-then-normalize-then-store:
with a nonempty known type, any validation error is returned as-is (so
when an input would fail both checks, the validation error wins), and
the add succeeds with exactly the normalized bag iff validation and
normalization both pass; nothing is stored on any failure. -/
theorem C9_validate_then_normalize (reg : Registry) (typeName name : String)
    (props : List (String × GoValue)) (hn : name ≠ "") (ht : typeName ≠ "")
    (hex : typeExists reg typeName = true) :
    (∀ e, validateProps reg typeName props = Except.error e →
      cmdAddModel reg typeName name props = Except.error e)
    ∧ (∀ bag, cmdAddModel reg typeName name props = Except.ok bag ↔
        (validateProps reg typeName props = Except.ok () ∧
          normalizeProps props (getFieldUnits reg typeName) = some bag)) := by
  unfold cmdAddModel
  rw [if_neg hn, if_neg (by simp [hex]), if_pos ht]
  cases hv : validateProps reg typeName props with
  | error e0 =>
    refine ⟨fun e' he' => ?_, fun bag => ?_⟩
    · injection he' with h
      rw [h]
      simp [Except.bind]
    · simp [Except.bind]
  | ok u =>
    cases u
    refine ⟨fun e' he' => absurd he' (by simp), fun bag => ?_⟩
    cases hnp : normalizeProps props (getFieldUnits reg typeName) with
    | none => simp [Except.bind, hnp]
    | some b => simp [Except.bind, hnp, eq_comm]

/-- C9 witness at the demo registry and bag. -/
theorem C9_validate_then_normalize_witness :
    (∀ e, validateProps demoReg "roulement" demoProps = Except.error e →
      cmdAddModel demoReg "roulement" "r1" demoProps = Except.error e)
    ∧ (∀ bag, cmdAddModel demoReg "roulement" "r1" demoProps = Except.ok bag ↔
        (validateProps demoReg "roulement" demoProps = Except.ok () ∧
          normalizeProps demoProps (getFieldUnits demoReg "roulement") = some bag)) :=
  C9_validate_then_normalize demoReg "roulement" "r1" demoProps (by decide) (by decide)
    (by with_unfolding_all rfl)

/-- C10 counterexample: with strict types on, a part with no type and the
bag {"foo": "5qq"} is rejected (by unit normalization), so an empty-type
part is not accepted with arbitrary attribute bags. -/
theorem C10_counterexample :
    strictTypes = true
    ∧ cmdAddModel [] "" "n" [("foo", GoValue.str "5qq")] =
        Except.error AddErr.normalizeError :=
  ⟨rfl, by with_unfolding_all rfl⟩

/-- C10 (amended): an empty type string bypasses the strict-mode
existence check and required-field validation entirely — even with
strictTypes = true the only possible rejection of a named, untyped part
is a unit-normalization failure, never UnknownType or
MissingRequiredField. -/
theorem C10_no_type_skips_type_checks (reg : Registry) (name : String)
    (props : List (String × GoValue)) (hn : name ≠ "") :
    ∀ e, cmdAddModel reg "" name props = Except.error e → e = AddErr.normalizeError := by
  intro e he
  unfold cmdAddModel at he
  rw [if_neg hn, if_neg (by simp)] at he
  simp only [ne_eq, not_true_eq_false, if_false] at he
  cases hnp : normalizeProps props (getFieldUnits reg "") with
  | none => rw [hnp] at he; simpa [Except.bind] using he.symm
  | some bag => rw [hnp] at he; simp [Except.bind] at he

/-- C10 witness at the rejected concrete bag: the concrete add fails, and
the returned error is the normalization error. -/
theorem C10_no_type_skips_type_checks_witness :
    cmdAddModel [] "" "n" [("foo", GoValue.str "5qq")] = Except.error AddErr.normalizeError
    ∧ AddErr.normalizeError = AddErr.normalizeError :=
  ⟨by with_unfolding_all rfl,
    C10_no_type_skips_type_checks [] "n" [("foo", GoValue.str "5qq")] (by decide)
      AddErr.normalizeError (by with_unfolding_all rfl)⟩

end OO
